import Mathlib

/-!
# Verification of the Adafruit_MPRLS pressure-sensor driver

Shallow embedding of `src/Adafruit_MPRLS.cpp` / `src/Adafruit_MPRLS.h`.

Modelling conventions:
* C machine integers are `Nat` with explicit `% 2^w` at the operations where
  wraparound can occur (`uint32_t` subtraction and multiplication, the
  `uint16_t` fields are kept reduced mod `2^16`).  The usual arithmetic
  conversions are those of a 32-bit-`int` platform (ARM), so the mixed
  `uint32_t * int` product at line 134 of the source is carried out mod `2^32`.
* C `float`/`double` values and arithmetic are idealised as exact rational
  (`ℚ`) arithmetic; the structure of every expression (order of the divide,
  add and multiply) follows the source.  The float-to-`uint32_t` cast in the
  constructor truncates toward zero, which for the nonnegative operands used
  there is `Int.floor`.
* The I2C bus, the EOC pin and the millisecond clock are an oracle
  environment `SensorEnv`: successive `digitalRead(_eoc)` results, successive
  status bytes, successive `millis()` readings, and the final 4-byte frame.
* The busy-wait loops of `readData` are fuel-indexed recursions; `none` means
  the fuel ran out with the loop still spinning.
-/

/-- `MPRLS_READ_TIMEOUT` (`Adafruit_MPRLS.h` line 29): 20 ms. -/
def MPRLS_READ_TIMEOUT : ℕ := 20

/-- `MPRLS_STATUS_POWERED` (`.h` line 30): `0x40`. -/
def MPRLS_STATUS_POWERED : ℕ := 0x40

/-- `MPRLS_STATUS_BUSY` (`.h` line 31): `0x20`. -/
def MPRLS_STATUS_BUSY : ℕ := 0x20

/-- `MPRLS_STATUS_FAILED` (`.h` line 32): `0x04`. -/
def MPRLS_STATUS_FAILED : ℕ := 0x04

/-- `MPRLS_STATUS_MATHSAT` (`.h` line 33): `0x01`. -/
def MPRLS_STATUS_MATHSAT : ℕ := 0x01

/-- `COUNTS_224` (`.h` line 34): 2^24. -/
def COUNTS_224 : ℕ := 16777216

/-- `PSI_to_HPA` (`.h` line 35): 68.947572932, as an exact rational. -/
def PSI_to_HPA : ℚ := 68947572932 / 1000000000

/-- `MPRLS_STATUS_MASK` (`.h` lines 36-37): `0b01100101`. -/
def MPRLS_STATUS_MASK : ℕ := 0b01100101

/-- The driver object: the fields of class `Adafruit_MPRLS`
(`.h` lines 57-66).  `int8_t` pins are `Int`; the `uint16_t` PSI bounds and
`uint32_t` count bounds are `Nat` (kept `< 2^16` resp. `< 2^32` by
construction); the `float` factor `K` is an exact `ℚ`. -/
structure MPRLS where
  reset : Int
  eoc : Int
  PSI_min : ℕ
  PSI_max : ℕ
  OUTPUT_min : ℕ
  OUTPUT_max : ℕ
  K : ℚ

/-- The count computation of the constructor (`.cpp` lines 80-81):
`(uint32_t)((float)COUNTS_224 * (percent / 100.0) + 0.5)`.
Float arithmetic is idealised as exact `ℚ`; the float-to-`uint32_t` cast is
truncation toward zero, i.e. `Int.floor` on the nonnegative values arising
here (`% 2^32` models the 32-bit container; out-of-range casts are UB in C). -/
def countsFromPercent (p : ℚ) : ℕ :=
  (Int.toNat ⌊(COUNTS_224 : ℚ) * (p / 100) + 1/2⌋) % 2^32

/-- The constructor `Adafruit_MPRLS::Adafruit_MPRLS` (`.cpp` lines 72-83):
stores the pins and PSI range and precomputes `_OUTPUT_min`/`_OUTPUT_max`
from the percentages.  `PSI` inputs are reduced mod `2^16` (`uint16_t`). -/
def mkMPRLS (reset_pin EOC_pin : Int) (PSI_min PSI_max : ℕ)
    (OUTPUT_min OUTPUT_max : ℚ) (K : ℚ) : MPRLS :=
  { reset := reset_pin
    eoc := EOC_pin
    PSI_min := PSI_min % 2^16
    PSI_max := PSI_max % 2^16
    OUTPUT_min := countsFromPercent OUTPUT_min
    OUTPUT_max := countsFromPercent OUTPUT_max
    K := K }

/-- `Adafruit_MPRLS::readPressure` (`.cpp` lines 126-139), as a function of
the raw value returned by `readData` (line 127).  `none` models the `NAN`
return.  The arithmetic of lines 134-138 keeps the source's integer types:
`raw_psi - _OUTPUT_min` is a `uint32_t` subtraction (wraps mod `2^32`);
`_PSI_max - _PSI_min` is an `int` subtraction whose value enters the
`uint32_t` product mod `2^32`; the product itself wraps mod `2^32`; the
divisor `(float)(_OUTPUT_max - _OUTPUT_min)` is a `uint32_t` subtraction
(wraps mod `2^32`).  The subsequent float steps are exact `ℚ`. -/
def readPressure (s : MPRLS) (raw_psi : ℕ) : Option ℚ :=
  if raw_psi = 0xFFFFFFFF ∨ s.OUTPUT_min = s.OUTPUT_max then
    none
  else
    let diffCounts : ℕ := (raw_psi + 2^32 - s.OUTPUT_min) % 2^32
    let diffPSI : ℕ := (s.PSI_max + 2^32 - s.PSI_min) % 2^32
    let prod : ℕ := (diffCounts * diffPSI) % 2^32
    let denom : ℕ := (s.OUTPUT_max + 2^32 - s.OUTPUT_min) % 2^32
    some (((prod : ℚ) / (denom : ℚ) + (s.PSI_min : ℚ)) * s.K)

/-- The pressure formula exactly as the specification words it (§4.1 step 3):
`psi = (raw - outputMinCounts) * (psiMax - psiMin) / (outputMaxCounts -
outputMinCounts) + psiMin`, then `* scaleFactor` — mathematical integers, no
wraparound.  Used to compare the code's arithmetic against the spec. -/
def specPressure (s : MPRLS) (raw : ℕ) : ℚ :=
  (((raw : ℚ) - (s.OUTPUT_min : ℚ)) * ((s.PSI_max : ℚ) - (s.PSI_min : ℚ)) /
      ((s.OUTPUT_max : ℚ) - (s.OUTPUT_min : ℚ)) + (s.PSI_min : ℚ)) * s.K

/-- The readiness check of `Adafruit_MPRLS::begin` (`.cpp` line 116):
`(readStatus() & MPRLS_STATUS_MASK) == MPRLS_STATUS_POWERED`, as a function
of the status byte read. -/
def beginCheck (status : ℕ) : Bool :=
  (status &&& MPRLS_STATUS_MASK) == MPRLS_STATUS_POWERED

/-- The frame decoding at the end of `Adafruit_MPRLS::readData`
(`.cpp` lines 170-184): reject the frame if the math-saturation bit or the
integrity-failed bit of the status byte is set, otherwise assemble the three
data bytes big-endian. -/
def decodeFrame (b0 b1 b2 b3 : ℕ) : ℕ :=
  if b0 &&& MPRLS_STATUS_MATHSAT ≠ 0 then 0xFFFFFFFF
  else if b0 &&& MPRLS_STATUS_FAILED ≠ 0 then 0xFFFFFFFF
  else (b1 <<< 16) ||| (b2 <<< 8) ||| b3

/-- Oracle environment for one `readData` call: `pinReads k` is the k-th
`digitalRead(_eoc)` result, `statusReads k` the byte of the k-th status read
of the polling loop, `clock k` the k-th `millis()` reading (`clock 0` is the
start timestamp `t` of `.cpp` line 154), and `b0`-`b3` the 4-byte frame read
at line 171. -/
structure SensorEnv where
  pinReads : ℕ → Bool
  statusReads : ℕ → ℕ
  clock : ℕ → ℕ
  b0 : ℕ
  b1 : ℕ
  b2 : ℕ
  b3 : ℕ

/-- Outcome of a wait loop: `ready k` records that the ready condition held
at the k-th poll (the loop exited normally); `timeout K` records a sentinel
return whose deciding `millis()` reading was `clock K`. -/
inductive WaitResult where
  | ready (k : ℕ)
  | timeout (K : ℕ)
deriving DecidableEq, Repr

/-- The index of the last status read a `statusLoop` run performed before
producing the given result: the exiting read itself for `ready k`, and the
read of the final (timed-out) iteration for `timeout K` (that iteration's
`millis()` call was number `K`, its status read number `K - 1`). -/
def lastReadIndex : WaitResult → ℕ
  | .ready k => k
  | .timeout K => K - 1

/-- The pin-based wait loop of `readData` (`.cpp` lines 155-159):
`while (!digitalRead(_eoc)) { if (millis() - t > MPRLS_READ_TIMEOUT) return
0xFFFFFFFF; }`.  `k` counts the polls already made, `fuel` bounds the number
of further iterations (`none` = fuel exhausted, loop still spinning).
`millis() - t` is `uint32_t` arithmetic; with a monotone clock and no
wraparound it is `Nat` subtraction. -/
def pinLoop (pin : ℕ → Bool) (clock : ℕ → ℕ) (t : ℕ) :
    ℕ → ℕ → Option WaitResult
  | 0, _ => none
  | fuel + 1, k =>
    if pin k then some (.ready k)
    else if MPRLS_READ_TIMEOUT < clock (k + 1) - t then some (.timeout (k + 1))
    else pinLoop pin clock t fuel (k + 1)

/-- The status-polling wait loop of `readData` (`.cpp` lines 160-168):
`while ((lastStatus = readStatus()) & MPRLS_STATUS_BUSY) { if (millis() - t >
MPRLS_READ_TIMEOUT) return 0xFFFFFFFF; }`.  The running `lastStatus` is
threaded through as `ls` and returned with the result. -/
def statusLoop (status : ℕ → ℕ) (clock : ℕ → ℕ) (t : ℕ) :
    ℕ → ℕ → ℕ → Option (WaitResult × ℕ)
  | _, 0, _ => none
  | _ls, fuel + 1, k =>
    let ls' := status k
    if ls' &&& MPRLS_STATUS_BUSY ≠ 0 then
      if MPRLS_READ_TIMEOUT < clock (k + 1) - t then some (.timeout (k + 1), ls')
      else statusLoop status clock t ls' fuel (k + 1)
    else some (.ready k, ls')

/-- `Adafruit_MPRLS::readData` (`.cpp` lines 147-184) against the oracle
environment, threading the member `lastStatus` (initial value `ls0`).
Returns `some (value, lastStatus)` where `value` is the `uint32_t` return
value (`0xFFFFFFFF` on timeout or fault), or `none` when the wait fuel runs
out.  The pin strategy never touches `lastStatus`; the status strategy's
final `lastStatus` is the byte of its last status read. -/
def readData (s : MPRLS) (env : SensorEnv) (fuel : ℕ) (ls0 : ℕ) :
    Option (ℕ × ℕ) :=
  let t := env.clock 0
  if s.eoc ≠ -1 then
    match pinLoop env.pinReads env.clock t fuel 0 with
    | none => none
    | some (.timeout _) => some (0xFFFFFFFF, ls0)
    | some (.ready _) => some (decodeFrame env.b0 env.b1 env.b2 env.b3, ls0)
  else
    match statusLoop env.statusReads env.clock t ls0 fuel 0 with
    | none => none
    | some (.timeout _, ls) => some (0xFFFFFFFF, ls)
    | some (.ready _, ls) => some (decodeFrame env.b0 env.b1 env.b2 env.b3, ls)

/-- `Adafruit_MPRLS::readStatus` (`.cpp` lines 192-196): reads one byte and
returns it verbatim.  The member `lastStatus` (second component) is passed
through unchanged — the source assigns it only inside `readData`'s polling
loop, not here. -/
def readStatus (env : SensorEnv) (ls : ℕ) : ℕ × ℕ :=
  (env.statusReads 0, ls)

/-- The sensor object built by the default constructor arguments
(`.h` lines 47-50) but with scale factor 1: the count fields hold exactly
`countsFromPercent 10` and `countsFromPercent 90` (see
`countsFromPercent_10`/`countsFromPercent_90`). -/
def cfgLit : MPRLS := ⟨-1, -1, 0, 25, 1677722, 15099494, 1⟩

/-- A sensor constructed with the full `uint16_t` PSI range (the changelog at
the head of the `.cpp` notes the 16-bit fields exist "to support
values > 255"), default curve percentages, scale factor 1. -/
def cfgWide : MPRLS := mkMPRLS (-1) (-1) 0 65535 10 90 1

/-- The sensor built with all constructor defaults (`.h` lines 47-50). -/
def defaultMPRLS : MPRLS := mkMPRLS (-1) (-1) 0 25 10 90 PSI_to_HPA

/-- A concrete environment: EOC pin immediately high, every status read
returns `0x40` (powered, idle), clock frozen at 0, response frame
`40 01 02 03`. -/
def envReady : SensorEnv :=
  { pinReads := fun _ => true
    statusReads := fun _ => 0x40
    clock := fun _ => 0
    b0 := 0x40
    b1 := 1
    b2 := 2
    b3 := 3 }

/-- `cfgLit` with the EOC pin wired (pin 0), so `readData` uses the
pin-based wait strategy. -/
def cfgPin : MPRLS := ⟨-1, 0, 0, 25, 1677722, 15099494, 1⟩

lemma countsFromPercent_10 : countsFromPercent 10 = 1677722 := by
  norm_num [countsFromPercent, COUNTS_224]
  rfl

lemma countsFromPercent_90 : countsFromPercent 90 = 15099494 := by
  norm_num [countsFromPercent, COUNTS_224]
  rfl

lemma cfgWide_eq : cfgWide = ⟨-1, -1, 0, 65535, 1677722, 15099494, 1⟩ := by
  unfold cfgWide mkMPRLS
  rw [countsFromPercent_10, countsFromPercent_90]
  norm_num

lemma defaultMPRLS_eq :
    defaultMPRLS = ⟨-1, -1, 0, 25, 1677722, 15099494, PSI_to_HPA⟩ := by
  unfold defaultMPRLS mkMPRLS
  rw [countsFromPercent_10, countsFromPercent_90]
  norm_num

/-- The core linear-scaling fact: when the raw count sits at or above
`_OUTPUT_min` (so the `uint32_t` subtraction does not wrap), the curve is
increasing in both coordinates, and the `uint32_t` product does not
overflow, the value computed by `readPressure` is exactly the
specification's interpolation formula. -/
lemma readPressure_eq_specPressure (s : MPRLS) (raw : ℕ)
    (hraw : raw ≠ 0xFFFFFFFF) (hraw32 : raw < 2^32)
    (hlo : s.OUTPUT_min ≤ raw)
    (hmm : s.OUTPUT_min < s.OUTPUT_max) (hmax : s.OUTPUT_max < 2^32)
    (hpsi : s.PSI_min ≤ s.PSI_max) (hpsi16 : s.PSI_max < 2^16)
    (hprod : (raw - s.OUTPUT_min) * (s.PSI_max - s.PSI_min) < 2^32) :
    readPressure s raw = some (specPressure s raw) := by
  unfold readPressure
  rw [if_neg (by push_neg; exact ⟨hraw, Nat.ne_of_lt hmm⟩)]
  have h1 : (raw + 2^32 - s.OUTPUT_min) % 2^32 = raw - s.OUTPUT_min := by
    omega
  have h2 : (s.PSI_max + 2^32 - s.PSI_min) % 2^32 = s.PSI_max - s.PSI_min := by
    omega
  have h4 : (s.OUTPUT_max + 2^32 - s.OUTPUT_min) % 2^32 =
      s.OUTPUT_max - s.OUTPUT_min := by
    omega
  simp only [h1, h2, h4, Nat.mod_eq_of_lt hprod]
  unfold specPressure
  congr 1
  push_cast [Nat.cast_sub hlo, Nat.cast_sub hpsi, Nat.cast_sub hmm.le]
  ring

/-- C1: `readPressure` returns the NaN sentinel (`none`) if and only if the
raw value is the all-ones sentinel `0xFFFFFFFF` or
`_OUTPUT_min = _OUTPUT_max`; in every other case it returns a computed
number (`some`), and that is the caller's only error signal. -/
theorem readPressure_none_iff (s : MPRLS) (raw : ℕ) :
    readPressure s raw = none ↔
      raw = 0xFFFFFFFF ∨ s.OUTPUT_min = s.OUTPUT_max := by
  unfold readPressure
  split <;> simp_all

/-- C2 counterexample: with the default-curve configuration `cfgLit`
(`outputMinCounts = 1677722`, `outputMaxCounts = 15099494`,
`psiMin = 0`, `psiMax = 25`, scale 1) and the raw count 0 — which is not
the sentinel, and lies below `outputMinCounts` — `readPressure` does NOT
return the spec's interpolation formula: the `uint32_t` subtraction
`raw_psi - _OUTPUT_min` wraps, giving `2126512123/6710886 ≈ 316.9` instead
of the formula's `-3.125`. -/
theorem readPressure_below_min_ne_spec :
    readPressure cfgLit 0 ≠ some (specPressure cfgLit 0) := by
  set_option maxRecDepth 4000 in
  norm_num [readPressure, specPressure, cfgLit]

/-- C2 (amended): for every raw count that is not the sentinel and is at
least `outputMinCounts`, with an increasing curve
(`outputMinCounts < outputMaxCounts`, `psiMin ≤ psiMax`) and no `uint32_t`
overflow in the product `(raw − outputMinCounts)·(psiMax − psiMin)`,
`readPressure` returns exactly the interpolation formula
`((raw − outputMinCounts)·(psiMax − psiMin)/(outputMaxCounts −
outputMinCounts) + psiMin)·scaleFactor`, extrapolated (not clamped) for
`raw > outputMaxCounts`.  Below `outputMinCounts` the unsigned wraparound
makes the result differ from the formula (`readPressure_below_min_ne_spec`). -/
theorem readPressure_linear_interp (s : MPRLS) (raw : ℕ)
    (hraw : raw ≠ 0xFFFFFFFF) (hraw32 : raw < 2^32)
    (hlo : s.OUTPUT_min ≤ raw)
    (hmm : s.OUTPUT_min < s.OUTPUT_max) (hmax : s.OUTPUT_max < 2^32)
    (hpsi : s.PSI_min ≤ s.PSI_max) (hpsi16 : s.PSI_max < 2^16)
    (hprod : (raw - s.OUTPUT_min) * (s.PSI_max - s.PSI_min) < 2^32) :
    readPressure s raw = some (specPressure s raw) :=
  readPressure_eq_specPressure s raw hraw hraw32 hlo hmm hmax hpsi hpsi16 hprod

/-- Witness for `readPressure_linear_interp`: the raw count 2000000 on the
default-curve configuration `cfgLit` (a value strictly between the curve
endpoints). -/
theorem readPressure_linear_interp_witness :
    readPressure cfgLit 2000000 = some (specPressure cfgLit 2000000) :=
  readPressure_linear_interp cfgLit 2000000 (by decide) (by decide) (by decide)
    (by decide) (by decide) (by decide) (by decide) (by decide)

/-- C3 counterexample: the configuration
`cfgWide = mkMPRLS (-1) (-1) 0 65535 10 90 1` is valid (the changelog
states the 16-bit PSI fields exist to support values > 255) and has
`outputMaxPercent ≠ outputMinPercent`, yet feeding the computed
`outputMaxCounts = 15099494` does not yield `psiMax · scaleFactor = 65535`:
the `uint32_t` product `(outputMaxCounts − outputMinCounts)·(psiMax −
psiMin) = 13421772 · 65535` overflows mod `2^32`, and `readPressure`
returns `16776959/65793 ≈ 255` instead. -/
theorem readPressure_max_endpoint_fails :
    readPressure cfgWide cfgWide.OUTPUT_max ≠
      some ((cfgWide.PSI_max : ℚ) * cfgWide.K) := by
  rw [cfgWide_eq]
  set_option maxRecDepth 4000 in
  norm_num [readPressure]

/-- C3 (amended): for every configuration with
`outputMinCounts ≠ outputMaxCounts` and `outputMinCounts` not the sentinel,
a raw count exactly `outputMinCounts` yields `psiMin · scaleFactor`; and a
raw count exactly `outputMaxCounts` yields `psiMax · scaleFactor` provided
additionally that `outputMaxCounts` is not the sentinel, the curve is
increasing (`outputMinCounts < outputMaxCounts < 2^32`,
`psiMin ≤ psiMax < 2^16`) and the `uint32_t` product
`(outputMaxCounts − outputMinCounts)·(psiMax − psiMin)` does not overflow
(as it does in `readPressure_max_endpoint_fails`). -/
theorem readPressure_endpoints (s : MPRLS)
    (hne : s.OUTPUT_min ≠ s.OUTPUT_max) (hsent : s.OUTPUT_min ≠ 0xFFFFFFFF) :
    readPressure s s.OUTPUT_min = some ((s.PSI_min : ℚ) * s.K) ∧
    (s.OUTPUT_max ≠ 0xFFFFFFFF → s.OUTPUT_min < s.OUTPUT_max →
     s.OUTPUT_max < 2^32 → s.PSI_min ≤ s.PSI_max → s.PSI_max < 2^16 →
     (s.OUTPUT_max - s.OUTPUT_min) * (s.PSI_max - s.PSI_min) < 2^32 →
     readPressure s s.OUTPUT_max = some ((s.PSI_max : ℚ) * s.K)) := by
  constructor
  · unfold readPressure
    rw [if_neg (by push_neg; exact ⟨hsent, hne⟩)]
    have h1 : (s.OUTPUT_min + 2^32 - s.OUTPUT_min) % 2^32 = 0 := by omega
    simp [h1]
  · intro hs hmm hmax hpsi hpsi16 hprod
    rw [readPressure_eq_specPressure s s.OUTPUT_max hs (by omega) hmm.le hmm
      hmax hpsi hpsi16 hprod]
    unfold specPressure
    have hd : (s.OUTPUT_max : ℚ) - (s.OUTPUT_min : ℚ) ≠ 0 := by
      rw [sub_ne_zero]
      exact_mod_cast (Nat.ne_of_lt hmm).symm
    have hcancel : ((s.OUTPUT_max : ℚ) - (s.OUTPUT_min : ℚ)) *
        ((s.PSI_max : ℚ) - (s.PSI_min : ℚ)) /
        ((s.OUTPUT_max : ℚ) - (s.OUTPUT_min : ℚ)) =
        (s.PSI_max : ℚ) - (s.PSI_min : ℚ) := by
      rw [mul_comm, mul_div_assoc, div_self hd, mul_one]
    rw [hcancel, sub_add_cancel]

/-- Witness for `readPressure_endpoints`: both endpoints of the
default-curve configuration `cfgLit` (`1677722 ↦ 0`, `15099494 ↦ 25`). -/
theorem readPressure_endpoints_witness :
    readPressure cfgLit cfgLit.OUTPUT_min =
      some ((cfgLit.PSI_min : ℚ) * cfgLit.K) ∧
    readPressure cfgLit cfgLit.OUTPUT_max =
      some ((cfgLit.PSI_max : ℚ) * cfgLit.K) :=
  ⟨(readPressure_endpoints cfgLit (by decide) (by decide)).1,
   (readPressure_endpoints cfgLit (by decide) (by decide)).2 (by decide)
     (by decide) (by decide) (by decide) (by decide) (by decide)⟩

/-- C9: the constructor derives both count thresholds as
`round(2^24 · percent/100)` of the supplied percentage (for percentages in
`[0, 100]`, where the float-to-`uint32_t` cast is in range); the default
percentages 10 and 90 yield 1677722 and 15099494; construction is a pure
total function (no I/O, no failure mode). -/
theorem mkMPRLS_counts :
    (∀ p : ℚ, 0 ≤ p → p ≤ 100 →
      countsFromPercent p = (round ((COUNTS_224 : ℚ) * (p / 100))).toNat) ∧
    (∀ (r e : Int) (a b : ℕ) (pmin pmax K : ℚ),
      (mkMPRLS r e a b pmin pmax K).OUTPUT_min = countsFromPercent pmin ∧
      (mkMPRLS r e a b pmin pmax K).OUTPUT_max = countsFromPercent pmax) ∧
    defaultMPRLS.OUTPUT_min = 1677722 ∧ defaultMPRLS.OUTPUT_max = 15099494 := by
  refine ⟨?_, fun r e a b pmin pmax K => ⟨rfl, rfl⟩, ?_, ?_⟩
  · intro p hp0 hp100
    unfold countsFromPercent
    rw [round_eq]
    apply Nat.mod_eq_of_lt
    have hx : (COUNTS_224 : ℚ) * (p / 100) + 1/2 ≤ 16777216 + 1/2 := by
      have : (COUNTS_224 : ℚ) * (p / 100) ≤ 16777216 := by
        rw [show ((COUNTS_224 : ℕ) : ℚ) = 16777216 by norm_num [COUNTS_224]]
        nlinarith
      linarith
    have hfl : ⌊(COUNTS_224 : ℚ) * (p / 100) + 1/2⌋ ≤ 16777216 := by
      have := Int.floor_le_floor hx
      have h2 : ⌊(16777216 + 1/2 : ℚ)⌋ = 16777216 := by
        rw [Int.floor_eq_iff]
        constructor <;> norm_num
      omega
    omega
  · rw [defaultMPRLS_eq]
  · rw [defaultMPRLS_eq]

/-- Witness for `mkMPRLS_counts`: the default minimum percentage 10 satisfies
the rounding formula. -/
theorem mkMPRLS_counts_witness :
    countsFromPercent 10 = (round ((COUNTS_224 : ℚ) * (10 / 100))).toNat :=
  mkMPRLS_counts.1 10 (by norm_num) (by norm_num)

/-- While all `millis()` readings seen so far are within the timeout window
and the pin never reads high, the pin wait loop is still spinning: with too
little fuel it produces no result. -/
lemma pinLoop_spin (pin : ℕ → Bool) (clock : ℕ → ℕ) (t K₀ : ℕ)
    (hnever : ∀ k, pin k = false)
    (hmin : ∀ j, j < K₀ → clock j ≤ t + MPRLS_READ_TIMEOUT) :
    ∀ fuel k, fuel + k < K₀ → pinLoop pin clock t fuel k = none := by
  intro fuel
  induction fuel with
  | zero => intro k _; rfl
  | succ n ih =>
    intro k hk
    unfold pinLoop
    rw [if_neg (by simp [hnever k])]
    have hle : clock (k + 1) ≤ t + MPRLS_READ_TIMEOUT := hmin (k + 1) (by omega)
    rw [if_neg (by omega)]
    exact ih (k + 1) (by omega)

/-- If the pin never reads high and `clock K₀` is the first `millis()`
reading past the deadline `t + MPRLS_READ_TIMEOUT`, the pin wait loop
returns the timeout result at exactly that reading, given fuel to reach it. -/
lemma pinLoop_timeout_eq (pin : ℕ → Bool) (clock : ℕ → ℕ) (t K₀ : ℕ)
    (hnever : ∀ k, pin k = false)
    (hK : t + MPRLS_READ_TIMEOUT < clock K₀)
    (hmin : ∀ j, j < K₀ → clock j ≤ t + MPRLS_READ_TIMEOUT) :
    ∀ fuel k, k < K₀ → K₀ ≤ fuel + k →
      pinLoop pin clock t fuel k = some (.timeout K₀) := by
  intro fuel
  induction fuel with
  | zero => intro k h1 h2; omega
  | succ n ih =>
    intro k h1 h2
    unfold pinLoop
    rw [if_neg (by simp [hnever k])]
    by_cases hend : k + 1 = K₀
    · rw [if_pos (by rw [hend]; omega), hend]
    · have hle : clock (k + 1) ≤ t + MPRLS_READ_TIMEOUT :=
        hmin (k + 1) (by omega)
      rw [if_neg (by omega)]
      exact ih (k + 1) (by omega) (by omega)

/-- Status-loop analogue of `pinLoop_spin`: while the busy bit never clears
and all readings are within the window, the loop is still spinning. -/
lemma statusLoop_spin (status : ℕ → ℕ) (clock : ℕ → ℕ) (t K₀ : ℕ)
    (hbusy : ∀ k, status k &&& MPRLS_STATUS_BUSY ≠ 0)
    (hmin : ∀ j, j < K₀ → clock j ≤ t + MPRLS_READ_TIMEOUT) :
    ∀ fuel ls k, fuel + k < K₀ →
      statusLoop status clock t ls fuel k = none := by
  intro fuel
  induction fuel with
  | zero => intro ls k _; rfl
  | succ n ih =>
    intro ls k hk
    unfold statusLoop
    rw [if_pos (hbusy k)]
    have hle : clock (k + 1) ≤ t + MPRLS_READ_TIMEOUT := hmin (k + 1) (by omega)
    rw [if_neg (by omega)]
    exact ih (status k) (k + 1) (by omega)

/-- Status-loop analogue of `pinLoop_timeout_eq`; the returned `lastStatus`
is the byte of the loop's final status read, number `K₀ - 1`. -/
lemma statusLoop_timeout_eq (status : ℕ → ℕ) (clock : ℕ → ℕ) (t K₀ : ℕ)
    (hbusy : ∀ k, status k &&& MPRLS_STATUS_BUSY ≠ 0)
    (hK : t + MPRLS_READ_TIMEOUT < clock K₀)
    (hmin : ∀ j, j < K₀ → clock j ≤ t + MPRLS_READ_TIMEOUT) :
    ∀ fuel ls k, k < K₀ → K₀ ≤ fuel + k →
      statusLoop status clock t ls fuel k =
        some (.timeout K₀, status (K₀ - 1)) := by
  intro fuel
  induction fuel with
  | zero => intro ls k h1 h2; omega
  | succ n ih =>
    intro ls k h1 h2
    unfold statusLoop
    rw [if_pos (hbusy k)]
    by_cases hend : k + 1 = K₀
    · rw [if_pos (by rw [hend]; omega), hend]
      have : K₀ - 1 = k := by omega
      rw [this]
    · have hle : clock (k + 1) ≤ t + MPRLS_READ_TIMEOUT :=
        hmin (k + 1) (by omega)
      rw [if_neg (by omega)]
      exact ih (status k) (k + 1) (by omega) (by omega)

/-- Whatever result the status-polling loop produces, the `lastStatus` it
hands back is the byte of its most recent status read (index
`lastReadIndex` of the result). -/
lemma statusLoop_lastStatus (status : ℕ → ℕ) (clock : ℕ → ℕ) (t : ℕ) :
    ∀ fuel ls k r l, statusLoop status clock t ls fuel k = some (r, l) →
      l = status (lastReadIndex r) := by
  intro fuel
  induction fuel with
  | zero => intro ls k r l h; exact absurd h (by simp [statusLoop])
  | succ n ih =>
    intro ls k r l h
    unfold statusLoop at h
    by_cases hb : status k &&& MPRLS_STATUS_BUSY ≠ 0
    · rw [if_pos hb] at h
      by_cases ht : MPRLS_READ_TIMEOUT < clock (k + 1) - t
      · rw [if_pos ht] at h
        have h1 : WaitResult.timeout (k + 1) = r ∧ status k = l := by
          simpa using h
        rw [← h1.1, ← h1.2]
        simp [lastReadIndex]
      · rw [if_neg ht] at h
        exact ih (status k) (k + 1) r l h
    · rw [if_neg hb] at h
      have h1 : WaitResult.ready k = r ∧ status k = l := by simpa using h
      rw [← h1.1, ← h1.2]
      simp [lastReadIndex]

/-- C4: if the ready condition never becomes true (the EOC pin never reads
high, resp. the busy bit never clears), `readData` returns the sentinel
`0xFFFFFFFF`, and it does so exactly at the first `millis()` reading past
`t + MPRLS_READ_TIMEOUT`: `clock K₀` being that first reading (hypotheses
`hK`, `hmin`), the loop is still spinning with fewer than `K₀` polling
iterations of fuel (return is no sooner than the timeout's expiry) and has
returned the sentinel once `K₀` iterations are available (no later than one
polling iteration past the expiry). -/
theorem readData_timeout_bounds (s : MPRLS) (env : SensorEnv) (ls0 K₀ : ℕ)
    (hK : env.clock 0 + MPRLS_READ_TIMEOUT < env.clock K₀)
    (hmin : ∀ j, j < K₀ → env.clock j ≤ env.clock 0 + MPRLS_READ_TIMEOUT)
    (hready : (s.eoc ≠ -1 ∧ ∀ k, env.pinReads k = false) ∨
              (s.eoc = -1 ∧ ∀ k, env.statusReads k &&& MPRLS_STATUS_BUSY ≠ 0)) :
    (∀ fuel, fuel < K₀ → readData s env fuel ls0 = none) ∧
    (∀ fuel, K₀ ≤ fuel → ∃ l, readData s env fuel ls0 = some (0xFFFFFFFF, l)) := by
  have hK0pos : 0 < K₀ := by
    rcases Nat.eq_zero_or_pos K₀ with h | h
    · rw [h] at hK; omega
    · exact h
  rcases hready with ⟨heoc, hnever⟩ | ⟨heoc, hbusy⟩
  · constructor
    · intro fuel hf
      simp only [readData]
      rw [if_pos heoc,
        pinLoop_spin env.pinReads env.clock (env.clock 0) K₀ hnever hmin fuel 0
          (by omega)]
    · intro fuel hf
      refine ⟨ls0, ?_⟩
      simp only [readData]
      rw [if_pos heoc,
        pinLoop_timeout_eq env.pinReads env.clock (env.clock 0) K₀ hnever hK
          hmin fuel 0 hK0pos (by omega)]
  · constructor
    · intro fuel hf
      simp only [readData]
      rw [if_neg (by simp [heoc]),
        statusLoop_spin env.statusReads env.clock (env.clock 0) K₀ hbusy hmin
          fuel ls0 0 (by omega)]
    · intro fuel hf
      refine ⟨env.statusReads (K₀ - 1), ?_⟩
      simp only [readData]
      rw [if_neg (by simp [heoc]),
        statusLoop_timeout_eq env.statusReads env.clock (env.clock 0) K₀ hbusy
          hK hmin fuel ls0 0 hK0pos (by omega)]

/-- Witness for `readData_timeout_bounds`: pin strategy (`cfgPin`), pin
always low, clock ticking 0,1,2,…; the first reading past the 20-unit
deadline is `clock 21 = 21`, so 20 iterations of fuel yield no result and
21 yield the sentinel. -/
theorem readData_timeout_bounds_witness :
    (∀ fuel, fuel < 21 →
      readData cfgPin
        ⟨fun _ => false, fun _ => 0x60, fun k => k, 0x40, 1, 2, 3⟩ fuel 0 =
        none) ∧
    (∀ fuel, 21 ≤ fuel → ∃ l,
      readData cfgPin
        ⟨fun _ => false, fun _ => 0x60, fun k => k, 0x40, 1, 2, 3⟩ fuel 0 =
        some (0xFFFFFFFF, l)) :=
  readData_timeout_bounds cfgPin
    ⟨fun _ => false, fun _ => 0x60, fun k => k, 0x40, 1, 2, 3⟩ 0 21
    (by decide) (fun j hj => by simpa [MPRLS_READ_TIMEOUT] using Nat.le_of_lt_succ hj)
    (Or.inl ⟨by decide, fun k => rfl⟩)

/-- C5: for every 4-byte response frame whose status byte has the
math-saturation bit (`MPRLS_STATUS_MATHSAT`) or the integrity-failed bit
(`MPRLS_STATUS_FAILED`) set, the frame decoding of `readData` returns the
sentinel `0xFFFFFFFF` regardless of the three data bytes. -/
theorem decodeFrame_fault (b0 b1 b2 b3 : ℕ)
    (h : b0 &&& MPRLS_STATUS_MATHSAT ≠ 0 ∨ b0 &&& MPRLS_STATUS_FAILED ≠ 0) :
    decodeFrame b0 b1 b2 b3 = 0xFFFFFFFF := by
  unfold decodeFrame
  rcases h with h | h
  · rw [if_pos h]
  · by_cases hm : b0 &&& MPRLS_STATUS_MATHSAT ≠ 0
    · rw [if_pos hm]
    · rw [if_neg hm, if_pos h]

/-- Witness for `decodeFrame_fault`: status byte `0x04` (integrity failed)
with arbitrary data bytes `AB CD EF`. -/
theorem decodeFrame_fault_witness :
    ((0x04 : ℕ) &&& MPRLS_STATUS_MATHSAT ≠ 0 ∨
      (0x04 : ℕ) &&& MPRLS_STATUS_FAILED ≠ 0) ∧
    decodeFrame 0x04 0xAB 0xCD 0xEF = 0xFFFFFFFF :=
  ⟨Or.inr (by decide), decodeFrame_fault 0x04 0xAB 0xCD 0xEF (Or.inr (by decide))⟩

/-- C6: for every status byte, `begin`'s readiness check succeeds if and
only if masking with `MPRLS_STATUS_MASK = 0b01100101` leaves exactly
`MPRLS_STATUS_POWERED = 0b01000000`; equivalently, the powered bit (6) is
set and the busy (5), integrity-failed (2) and math-saturation (0) bits are
all clear — every other combination yields `false`. -/
theorem beginCheck_spec :
    ∀ st : ℕ, st < 256 →
      (beginCheck st = true ↔ st &&& MPRLS_STATUS_MASK = MPRLS_STATUS_POWERED) ∧
      (beginCheck st = true ↔
        (st.testBit 6 ∧ ¬ st.testBit 5 ∧ ¬ st.testBit 2 ∧ ¬ st.testBit 0)) := by
  set_option maxRecDepth 20000 in decide

/-- Witness for `beginCheck_spec`: the "powered, idle, no error" byte
`0x40`. -/
theorem beginCheck_spec_witness :
    (beginCheck 0x40 = true ↔
      (0x40 : ℕ) &&& MPRLS_STATUS_MASK = MPRLS_STATUS_POWERED) ∧
    (beginCheck 0x40 = true ↔
      ((0x40 : ℕ).testBit 6 ∧ ¬ (0x40 : ℕ).testBit 5 ∧
        ¬ (0x40 : ℕ).testBit 2 ∧ ¬ (0x40 : ℕ).testBit 0)) :=
  beginCheck_spec 0x40 (by decide)

/-- C7: during `readData`'s wait phase, the status-polling loop assigns
`lastStatus` the byte of every status read, so whatever result it exits
with carries the byte of its most recent read (`lastReadIndex`); with an
EOC pin configured, `readData` returns `lastStatus` exactly as it received
it — the pin-based wait never updates it. -/
theorem readData_wait_lastStatus (s : MPRLS) (env : SensorEnv)
    (fuel ls0 : ℕ) :
    (∀ ls f k r l,
      statusLoop env.statusReads env.clock (env.clock 0) ls f k = some (r, l) →
      l = env.statusReads (lastReadIndex r)) ∧
    (s.eoc ≠ -1 → ∀ v l, readData s env fuel ls0 = some (v, l) → l = ls0) := by
  constructor
  · intro ls f k r l h
    exact statusLoop_lastStatus env.statusReads env.clock (env.clock 0)
      f ls k r l h
  · intro heoc v l h
    simp only [readData] at h
    rw [if_pos heoc] at h
    rcases hpl : pinLoop env.pinReads env.clock (env.clock 0) fuel 0 with _ | r
    · rw [hpl] at h
      exact absurd h (by simp)
    · rw [hpl] at h
      cases r with
      | ready k =>
        have h1 : decodeFrame env.b0 env.b1 env.b2 env.b3 = v ∧ ls0 = l := by
          simpa using h
        exact h1.2.symm
      | timeout K =>
        have h1 : 0xFFFFFFFF = v ∧ ls0 = l := by simpa using h
        exact h1.2.symm

/-- Witness for `readData_wait_lastStatus`: a status-polling run that reads
busy (`0x60`) once and then idle (`0x40`) exits with `lastStatus = 0x40`,
the byte of its second (most recent) read; and a pin-based `readData`
(`cfgPin`, pin immediately high) hands back the initial `lastStatus 0`
untouched. -/
theorem readData_wait_lastStatus_witness :
    (0x40 : ℕ) =
      (SensorEnv.mk (fun _ => true)
        (fun k => if k = 0 then 0x60 else 0x40) (fun k => k)
        0x40 1 2 3).statusReads (lastReadIndex (WaitResult.ready 1)) ∧
    (0 : ℕ) = 0 :=
  ⟨(readData_wait_lastStatus cfgPin
      (SensorEnv.mk (fun _ => true)
        (fun k => if k = 0 then 0x60 else 0x40) (fun k => k) 0x40 1 2 3)
      2 0).1 0 2 0 (WaitResult.ready 1) 0x40 (by decide),
   (readData_wait_lastStatus cfgPin envReady 1 0).2 (by decide) 66051 0
     (by decide)⟩

/-- C8: the code does NOT maintain `lastStatus` on every status/data read,
contradicting the header's documentation (`lastStatus /*!< status byte
after last operation */`, and the changelog's "begin() method updates
lastStatus"): `readStatus` returns the byte it read (`0x40`) while leaving
`lastStatus` at its old value `0`, and a pin-strategy `readData` whose
4-byte frame carries status byte `0x40` also returns with `lastStatus`
still `0`.  Only the status-polling wait loop assigns `lastStatus`. -/
theorem lastStatus_not_updated :
    (readStatus envReady 0).1 = 0x40 ∧ (readStatus envReady 0).2 = 0 ∧
    readData cfgPin envReady 1 0 = some (66051, 0) ∧
    envReady.b0 = 0x40 ∧ (0 : ℕ) ≠ 0x40 := by
  decide

/-- C10: on the success path (no fault bit set) the value assembled from
the three data bytes `(b1 <<< 16) ||| (b2 <<< 8) ||| b3` is below `2^24`,
hence never equal to the sentinel `0xFFFFFFFF` — the sentinel is
unambiguous. -/
theorem decodeFrame_success_unambiguous (b0 b1 b2 b3 : ℕ)
    (h1 : b1 < 256) (h2 : b2 < 256) (h3 : b3 < 256)
    (hm : b0 &&& MPRLS_STATUS_MATHSAT = 0)
    (hf : b0 &&& MPRLS_STATUS_FAILED = 0) :
    decodeFrame b0 b1 b2 b3 < 2^24 ∧ decodeFrame b0 b1 b2 b3 ≠ 0xFFFFFFFF := by
  have he : decodeFrame b0 b1 b2 b3 = (b1 <<< 16) ||| (b2 <<< 8) ||| b3 := by
    unfold decodeFrame
    rw [if_neg (by omega), if_neg (by omega)]
  have hb1 : b1 <<< 16 < 2^24 := by
    rw [Nat.shiftLeft_eq]
    have h16 : (2 : ℕ)^16 = 65536 := by norm_num
    rw [h16]
    omega
  have hb2 : b2 <<< 8 < 2^24 := by
    rw [Nat.shiftLeft_eq]
    have h8 : (2 : ℕ)^8 = 256 := by norm_num
    rw [h8]
    omega
  have h12 : (b1 <<< 16) ||| (b2 <<< 8) < 2^24 := Nat.bitwise_lt hb1 hb2
  have hall : (b1 <<< 16) ||| (b2 <<< 8) ||| b3 < 2^24 :=
    Nat.bitwise_lt h12 (by omega)
  rw [he]
  exact ⟨hall, by omega⟩

/-- Witness for `decodeFrame_success_unambiguous`: the healthy frame
`40 01 02 03` decodes below `2^24` and is not the sentinel. -/
theorem decodeFrame_success_unambiguous_witness :
    decodeFrame 0x40 1 2 3 < 2^24 ∧ decodeFrame 0x40 1 2 3 ≠ 0xFFFFFFFF :=
  decodeFrame_success_unambiguous 0x40 1 2 3 (by decide) (by decide)
    (by decide) (by decide) (by decide)
